import Mathlib

/-!
Verification of the core of the multiuser-webchat server against its
natural-language specification.

The development shallowly embeds the three core modules:

* `src/server/models.py` — the message codec (`ChatMessage`,
  `chat_message_decoder`, `json_dumps`, `json_loads`).  Python's `json`
  standard library, as configured by that module (default `json.dumps`
  options, `json.loads` with `object_hook=chat_message_decoder`), is
  embedded as an executable parser and serializer over lists of Unicode
  code points.
* `src/server/redis.py` — the broadcast-bus client (`RedisManager`).
* `src/server/ws.py` — the connection registry and fan-out router
  (`WSMessageRouter`).

Python strings are modelled as lists of code points (`PyStr`).  Python
runtime values reachable through the codec are modelled by `PyValue`.
A Python exception propagating out of a call is modelled by the
`Except.error` constructor carrying a `PyExn`; a normal return is
`Except.ok`.
-/

/-- A Python `str` is a sequence of Unicode code points.  Code points are
kept as bare naturals because `json.loads` can produce lone surrogates,
which Lean's `Char` cannot carry. -/
abbrev PyStr := List Nat

/-- Conversion from a Lean string literal to the code-point model. -/
def str2cp (s : String) : PyStr := s.data.map Char.toNat

/-- The Python exceptions that the embedded code can raise.  An
`Except.error` carrying one of these models an exception propagating out
of the corresponding Python call; `Except.ok` models a normal return.
`json.JSONDecodeError` is a subclass of `ValueError`. -/
inductive PyExn where
  /-- Raised by `json.loads` on input that is not well-formed JSON. -/
  | jsonDecodeError
  /-- Raised by `ChatMessage(**obj)` when `obj` carries an unexpected
  keyword argument, i.e. a key other than `text`, `type`, `ts`. -/
  | typeError
  /-- A generic `ValueError` that is not a `JSONDecodeError`. -/
  | valueError
  /-- Raised by the `RedisManager` state guards. -/
  | runtimeError
  deriving DecidableEq, Repr

/-- Is the exception a `ValueError` (including its subclass
`json.JSONDecodeError`)?  `WSMessageRouter._handle_text` and
`RedisManager._listen_loop` catch `ValueError` separately from
`Exception`, though both handlers drop the message either way. -/
def PyExn.isValueError : PyExn → Bool
  | .jsonDecodeError => true
  | .valueError => true
  | _ => false

/-- The Python runtime values reachable through the codec in
`src/server/models.py`: JSON scalars, containers, and instances of the
frozen dataclass `ChatMessage`.  Because the dataclass performs no
runtime type validation, a `ChatMessage` instance can hold arbitrary
values in its three fields, so `pychat` takes three `PyValue`s.  Floats
are carried as their source token; no claim computes with them. -/
inductive PyValue where
  | pynone
  | pybool (b : Bool)
  | pyint (n : Int)
  | pyfloat (tok : PyStr)
  | pystr (s : PyStr)
  | pylist (xs : List PyValue)
  | pydict (kvs : List (PyStr × PyValue))
  | pychat (text ty ts : PyValue)

/-- JSON whitespace, the character class of `json.decoder.WHITESPACE`. -/
def isJsonWs (c : Nat) : Bool :=
  c = 32 || c = 9 || c = 10 || c = 13

/-- Skip JSON whitespace, as `_w(s, idx).end()` does. -/
def skipWs (s : PyStr) : PyStr := s.dropWhile isJsonWs

/-- An ASCII decimal digit. -/
def isDigit (c : Nat) : Bool := 48 ≤ c && c ≤ 57

/-- Value of a hexadecimal digit, accepting both cases, as `int(_, 16)`
does for the four digits of a `\uXXXX` escape. -/
def hexVal (c : Nat) : Option Nat :=
  if 48 ≤ c ∧ c ≤ 57 then some (c - 48)
  else if 97 ≤ c ∧ c ≤ 102 then some (c - 87)
  else if 65 ≤ c ∧ c ≤ 70 then some (c - 55)
  else none

/-- The value of a four-digit hexadecimal escape body. -/
def hex4 (a b c d : Nat) : Option Nat := do
  let va ← hexVal a
  let vb ← hexVal b
  let vc ← hexVal c
  let vd ← hexVal d
  pure (va * 4096 + vb * 256 + vc * 16 + vd)

/-- The two-character string escapes of `json.decoder.BACKSLASH`
(`\" \\ \/ \b \f \n \r \t`); `\u` is handled separately. -/
def escDecode (c : Nat) : Option Nat :=
  if c = 34 then some 34
  else if c = 92 then some 92
  else if c = 47 then some 47
  else if c = 98 then some 8
  else if c = 102 then some 12
  else if c = 110 then some 10
  else if c = 114 then some 13
  else if c = 116 then some 9
  else none

/-- Scan a JSON string body, positioned just after the opening quote, in
the manner of `json.decoder.py_scanstring` with `strict=True`: raw
characters other than the quote and the backslash are accepted unless
they are control characters; `\uXXXX` escapes are decoded, combining a
high surrogate immediately followed by an escaped low surrogate into one
code point.  Returns the decoded content and the input remaining after
the closing quote. -/
def parseJString : PyStr → Except PyExn (PyStr × PyStr)
  | [] => .error .jsonDecodeError
  | 34 :: rest => .ok ([], rest)
  | 92 :: 117 :: h1 :: h2 :: h3 :: h4 ::
      92 :: 117 :: g1 :: g2 :: g3 :: g4 :: rest =>
    (match hex4 h1 h2 h3 h4 with
    | none => .error .jsonDecodeError
    | some u =>
      if 55296 ≤ u ∧ u ≤ 56319 then
        match hex4 g1 g2 g3 g4 with
        | none => .error .jsonDecodeError
        | some u2 =>
          if 56320 ≤ u2 ∧ u2 ≤ 57343 then
            (parseJString rest).map fun p =>
              ((65536 + (u - 55296) * 1024 + (u2 - 56320)) :: p.1, p.2)
          else
            (parseJString (92 :: 117 :: g1 :: g2 :: g3 :: g4 :: rest)).map
              fun p => (u :: p.1, p.2)
      else
        (parseJString (92 :: 117 :: g1 :: g2 :: g3 :: g4 :: rest)).map
          fun p => (u :: p.1, p.2))
  | 92 :: 117 :: h1 :: h2 :: h3 :: h4 :: rest =>
    (match hex4 h1 h2 h3 h4 with
    | none => .error .jsonDecodeError
    | some u => (parseJString rest).map fun p => (u :: p.1, p.2))
  | 92 :: e :: rest =>
    (match escDecode e with
    | some c => (parseJString rest).map fun p => (c :: p.1, p.2)
    | none => .error .jsonDecodeError)
  | 92 :: _ => .error .jsonDecodeError
  | c :: rest =>
    if c < 32 then .error .jsonDecodeError
    else (parseJString rest).map fun p => (c :: p.1, p.2)

/-- Numeric value of a big-endian run of ASCII decimal digits, as
`int(token)` computes it. -/
def digitsToNat (ds : PyStr) : Nat :=
  ds.foldl (fun a d => a * 10 + (d - 48)) 0

/-- Scan the fractional part `(\.\d+)?` of the number grammar: consumed
token and remaining input, or `none` when absent. -/
def scanFrac (s : PyStr) : Option (PyStr × PyStr) :=
  match s with
  | 46 :: r =>
    let p := r.span isDigit
    if p.1 = [] then none else some (46 :: p.1, p.2)
  | _ => none

/-- Scan the exponent part `([eE][-+]?\d+)?` of the number grammar. -/
def scanExp (s : PyStr) : Option (PyStr × PyStr) :=
  match s with
  | e :: r =>
    if e = 101 ∨ e = 69 then
      match r with
      | c :: r2 =>
        if c = 43 ∨ c = 45 then
          let p := r2.span isDigit
          if p.1 = [] then none else some (e :: c :: p.1, p.2)
        else
          let p := r.span isDigit
          if p.1 = [] then none else some (e :: p.1, p.2)
      | [] => none
    else none
  | [] => none

/-- Scan the optional leading minus sign of the number grammar. -/
def scanSign (s : PyStr) : Bool × PyStr :=
  match s with
  | 45 :: r => (true, r)
  | _ => (false, s)

/-- Scan the integer part `-?(0|[1-9]\d*)`: flag for the sign, digit run,
and remaining input. -/
def scanIntPart (s : PyStr) : Option (Bool × PyStr × PyStr) :=
  let p := scanSign s
  match p.2 with
  | 48 :: r => some (p.1, [48], r)
  | d :: r =>
    if 49 ≤ d ∧ d ≤ 57 then
      let q := r.span isDigit
      some (p.1, d :: q.1, q.2)
    else none
  | [] => none

/-- Scan a JSON number at the head of the input, following the regular
expression `-?(0|[1-9]\d*)(\.\d+)?([eE][-+]?\d+)?` that
`json.scanner.py_make_scanner` matches: an integer literal becomes a
Python `int`, any literal with a fractional or exponent part becomes a
`float` (carried as its token). -/
def parseJNumber (s : PyStr) : Option (PyValue × PyStr) :=
  match scanIntPart s with
  | none => none
  | some (neg, ds, r) =>
    let fr := scanFrac r
    let r2 := match fr with
      | some f => f.2
      | none => r
    let ex := scanExp r2
    let r3 := match ex with
      | some x => x.2
      | none => r2
    match fr, ex with
    | none, none =>
      some (.pyint ((if neg then -1 else 1) * (digitsToNat ds : Int)), r)
    | _, _ =>
      let tok := (if neg then [45] else []) ++ ds
        ++ (match fr with | some f => f.1 | none => [])
        ++ (match ex with | some x => x.1 | none => [])
      some (.pyfloat tok, r3)

/-- Code points of the dict key `text`. -/
def textKey : PyStr := str2cp "text"

/-- Code points of the dict key `type`. -/
def typeKey : PyStr := str2cp "type"

/-- Code points of the dict key `ts`. -/
def tsKey : PyStr := str2cp "ts"

/-- The key set `{"text", "type", "ts"}` tested by the decoder hook. -/
def requiredKeys : List PyStr := [textKey, typeKey, tsKey]

/-- Assignment `d[k] = v` on a Python dict kept as an association list:
an existing key keeps its position and takes the new value, a new key is
appended. -/
def dictInsert : List (PyStr × PyValue) → PyStr → PyValue → List (PyStr × PyValue)
  | [], k, v => [(k, v)]
  | (k0, v0) :: rest, k, v =>
    if k0 = k then (k0, v) :: rest else (k0, v0) :: dictInsert rest k v

/-- Evaluation of `dict(pairs)` on the parsed member list: repeated
assignment, so a duplicated key keeps its first position and its last
value. -/
def dictOfPairs (ps : List (PyStr × PyValue)) : List (PyStr × PyValue) :=
  ps.foldl (fun d kv => dictInsert d kv.1 kv.2) []

/-- Lookup `obj[k]` on the association-list model of a dict. -/
def lookupKey : List (PyStr × PyValue) → PyStr → Option PyValue
  | [], _ => none
  | (k0, v0) :: rest, k => if k0 = k then some v0 else lookupKey rest k

/-- Embedding of `chat_message_decoder` in `src/server/models.py`: if
the three required keys are a subset of the object's keys, the object is
passed to `ChatMessage(**obj)`, which succeeds without any value-type
checking when the keys are exactly the three, and raises `TypeError` on
any extra keyword; otherwise the dict is returned unchanged. -/
def chat_message_decoder (obj : List (PyStr × PyValue)) : Except PyExn PyValue :=
  if requiredKeys.all fun k => (lookupKey obj k).isSome then
    if obj.all fun kv => decide (kv.1 ∈ requiredKeys) then
      .ok (.pychat ((lookupKey obj textKey).getD .pynone)
        ((lookupKey obj typeKey).getD .pynone)
        ((lookupKey obj tsKey).getD .pynone))
    else .error .typeError
  else .ok (.pydict obj)

/-- The three non-finite constants `NaN`, `Infinity` and `-Infinity`
accepted by the scanner after the number regular expression fails
(`parse_constant`); the float value is carried as the source token.  Any
other head is the scanner's `Expecting value` decode error. -/
def parseJConst : PyStr → Except PyExn (PyValue × PyStr)
  | 78 :: 97 :: 78 :: rest => .ok (.pyfloat (str2cp "NaN"), rest)
  | 73 :: 110 :: 102 :: 105 :: 110 :: 105 :: 116 :: 121 :: rest =>
    .ok (.pyfloat (str2cp "Infinity"), rest)
  | 45 :: 73 :: 110 :: 102 :: 105 :: 110 :: 105 :: 116 :: 121 :: rest =>
    .ok (.pyfloat (str2cp "-Infinity"), rest)
  | _ => .error .jsonDecodeError

/-- The non-container alternatives of `_scan_once`, tried in the
scanner's order once the input starts with none of `"`, `\x7b`, `[`: the
keyword literals `null`, `true`, `false`, then a number, then the
non-finite constants. -/
def parseJAtom (s : PyStr) : Except PyExn (PyValue × PyStr) :=
  match s with
  | 110 :: 117 :: 108 :: 108 :: rest => .ok (.pynone, rest)
  | 116 :: 114 :: 117 :: 101 :: rest => .ok (.pybool true, rest)
  | 102 :: 97 :: 108 :: 115 :: 101 :: rest => .ok (.pybool false, rest)
  | s2 =>
    match parseJNumber s2 with
    | some p => .ok p
    | none => parseJConst s2

/-!
The recursive JSON scanner, after `json.scanner.py_make_scanner` with
`object_hook = chat_message_decoder`.  The three functions recurse on a
fuel argument so that the recursion is structural and computations
reduce in the kernel; every recursive call strictly consumes input
before spending one unit of fuel, so the fuel `length + 1` supplied by
`json_loads` is never exhausted (a fuel of zero, which only unreachable
paths hit, reports the scanner's generic decode error).
-/

mutual

/-- Scan one JSON value at the head of the input: the dispatch of
`_scan_once`, trying in order a string, an object, an array, the three
keyword literals, a number, and the three non-finite constants. -/
def parseJValue : Nat → PyStr → Except PyExn (PyValue × PyStr)
  | 0, _ => .error .jsonDecodeError
  | fuel+1, s =>
    match s with
    | 34 :: rest => (parseJString rest).map fun p => (.pystr p.1, p.2)
    | 123 :: rest =>
      (match skipWs rest with
      | 125 :: r2 => (chat_message_decoder (dictOfPairs [])).map fun v => (v, r2)
      | 34 :: r2 => parseJMembers fuel r2 []
      | _ => .error .jsonDecodeError)
    | 91 :: rest =>
      (match skipWs rest with
      | 93 :: r2 => .ok (.pylist [], r2)
      | r2 =>
        match parseJValue fuel r2 with
        | .error e => .error e
        | .ok (v, r3) => parseJElems fuel (skipWs r3) [v])
    | s2 => parseJAtom s2

/-- Scan the members of an object from just after the opening quote of a
key, accumulating the pairs; on the closing brace the pairs become a
dict and `chat_message_decoder` is applied to it, exactly as `JSONObject`
calls the `object_hook` on every completed object. -/
def parseJMembers : Nat → PyStr → List (PyStr × PyValue) →
    Except PyExn (PyValue × PyStr)
  | 0, _, _ => .error .jsonDecodeError
  | fuel+1, s, acc =>
    match parseJString s with
    | .error e => .error e
    | .ok (key, r1) =>
      match skipWs r1 with
      | 58 :: r2 =>
        (match parseJValue fuel (skipWs r2) with
        | .error e => .error e
        | .ok (v, r3) =>
          match skipWs r3 with
          | 125 :: r4 =>
            (chat_message_decoder (dictOfPairs (acc ++ [(key, v)]))).map
              fun w => (w, r4)
          | 44 :: r4 =>
            (match skipWs r4 with
            | 34 :: r5 => parseJMembers fuel r5 (acc ++ [(key, v)])
            | _ => .error .jsonDecodeError)
          | _ => .error .jsonDecodeError)
      | _ => .error .jsonDecodeError

/-- Scan the continuation of an array after an element: a comma and a
further element, or the closing bracket. -/
def parseJElems : Nat → PyStr → List PyValue →
    Except PyExn (PyValue × PyStr)
  | 0, _, _ => .error .jsonDecodeError
  | fuel+1, s, acc =>
    match s with
    | 93 :: r2 => .ok (.pylist acc, r2)
    | 44 :: r2 =>
      (match parseJValue fuel (skipWs r2) with
      | .error e => .error e
      | .ok (v, r3) => parseJElems fuel (skipWs r3) (acc ++ [v]))
    | _ => .error .jsonDecodeError

end

/-- Embedding of `json_loads` in `src/server/models.py`:
`json.loads(s, object_hook=chat_message_decoder)`.  Leading whitespace
is skipped, one value is scanned, trailing whitespace is skipped, and
anything left over is the `Extra data` decode error. -/
def json_loads (s : PyStr) : Except PyExn PyValue :=
  let t := skipWs s
  match parseJValue (t.length + 1) t with
  | .error e => .error e
  | .ok (v, rest) => if skipWs rest = [] then .ok v else .error .jsonDecodeError

/-- Little-endian decimal digit values of a natural number.  The fuel
argument keeps the recursion structural; `n + 1` units always suffice
because a number has at most `n + 1` digits. -/
def natDigitsRev : Nat → Nat → List Nat
  | 0, _ => []
  | fuel+1, n => if n < 10 then [n] else n % 10 :: natDigitsRev fuel (n / 10)

/-- Decimal representation of a natural number as ASCII code points,
as Python `repr` writes it. -/
def natRepr (n : Nat) : PyStr :=
  ((natDigitsRev (n + 1) n).reverse).map fun d => d + 48

/-- Decimal representation of a Python `int`: a minus sign followed by
the digits for a negative number, plain digits otherwise. -/
def intRepr (n : Int) : PyStr :=
  if n < 0 then 45 :: natRepr n.natAbs else natRepr n.toNat

/-- The lower-case hexadecimal digit for a value below 16, as the
`\u%04x` formatting of the encoder writes it. -/
def hexDigit (d : Nat) : Nat := if d < 10 then d + 48 else d + 87

/-- Four-digit lower-case hexadecimal code of a value below `0x10000`. -/
def toHex4 (v : Nat) : PyStr :=
  [hexDigit (v / 4096 % 16), hexDigit (v / 256 % 16),
    hexDigit (v / 16 % 16), hexDigit (v % 16)]

/-- Escape one code point of a string the way `json.dumps` with its
default `ensure_ascii=True` does (`ESCAPE_ASCII`): the seven short
escapes, printable ASCII verbatim, and every other code point as one
`\uXXXX` escape or a surrogate pair of them. -/
def escChar (c : Nat) : PyStr :=
  if c = 34 then [92, 34]
  else if c = 92 then [92, 92]
  else if c = 8 then [92, 98]
  else if c = 12 then [92, 102]
  else if c = 10 then [92, 110]
  else if c = 13 then [92, 114]
  else if c = 9 then [92, 116]
  else if 32 ≤ c ∧ c ≤ 126 then [c]
  else if c < 65536 then 92 :: 117 :: toHex4 c
  else
    (92 :: 117 :: toHex4 (55296 + (c - 65536) / 1024))
      ++ (92 :: 117 :: toHex4 (56320 + (c - 65536) % 1024))

/-- Escape a whole string for serialization. -/
def escapeStr (s : PyStr) : PyStr := (s.map escChar).flatten

mutual

/-- Serialize one value the way `json.dumps(obj, cls=ChatMessageEncoder)`
with otherwise default options does: separators `", "` and `": "`, and
ASCII-escaped strings.  A `ChatMessage` is serialized through the
encoder's `default`, which turns it into `asdict(o)` — the dict with the
keys in field order `text`, `type`, `ts` — and serializes that.  A float
is written as its carried token (float formatting is not otherwise
modelled; no claim serializes a float). -/
def dumpsVal : PyValue → PyStr
  | .pynone => str2cp "null"
  | .pybool b => if b then str2cp "true" else str2cp "false"
  | .pyint n => intRepr n
  | .pyfloat t => t
  | .pystr s => 34 :: escapeStr s ++ [34]
  | .pylist xs => 91 :: dumpsItems xs ++ [93]
  | .pydict kvs => 123 :: dumpsEntries kvs ++ [125]
  | .pychat t y s =>
    123 :: ((34 :: escapeStr textKey ++ [34, 58, 32] ++ dumpsVal t)
      ++ ([44, 32] ++ (34 :: escapeStr typeKey ++ [34, 58, 32] ++ dumpsVal y))
      ++ ([44, 32] ++ (34 :: escapeStr tsKey ++ [34, 58, 32] ++ dumpsVal s))
      ++ [125])

/-- Serialize the elements of a list, separated by `", "`. -/
def dumpsItems : List PyValue → PyStr
  | [] => []
  | [v] => dumpsVal v
  | v :: rest => dumpsVal v ++ [44, 32] ++ dumpsItems rest

/-- Serialize the entries of a dict, `"key": value` separated by `", "`. -/
def dumpsEntries : List (PyStr × PyValue) → PyStr
  | [] => []
  | [(k, v)] => 34 :: escapeStr k ++ [34, 58, 32] ++ dumpsVal v
  | (k, v) :: rest =>
    (34 :: escapeStr k ++ [34, 58, 32] ++ dumpsVal v) ++ [44, 32]
      ++ dumpsEntries rest

end

/-- Embedding of `json_dumps` in `src/server/models.py`:
`json.dumps(obj, cls=ChatMessageEncoder)`. -/
def json_dumps (v : PyValue) : PyStr := dumpsVal v

/-- Value of `aiohttp.WSCloseCode.GOING_AWAY`. -/
def WSCloseCode_GOING_AWAY : Nat := 1001

/-- Value of `aiohttp.WSCloseCode.INTERNAL_ERROR`. -/
def WSCloseCode_INTERNAL_ERROR : Nat := 1011

/-- The per-peer send outcome enum `PeerStatus` of `src/server/ws.py`. -/
inductive PeerStatus where
  | OK
  | CLOSED
  | TIMEOUT
  | INTERNAL_ERROR
  deriving DecidableEq, Repr

/-- Transport-level behaviour of one peer's `send_str` when awaited
under the `SEND_TIMEOUT` guard: it completes in time, exceeds the
timeout (`asyncio.wait_for` raises `TimeoutError`), or raises some
other exception. -/
inductive SendBehavior where
  | succeeds
  | timesOut
  | raises
  deriving DecidableEq, Repr

/-- One live WebSocket connection as the router sees it during a
broadcast: an identity, the `ws.closed` flag, and the behaviour of its
transport for this send. -/
structure Peer where
  id : Nat
  closed : Bool
  send : SendBehavior
  deriving DecidableEq, Repr

/-- Externally visible effects of the router and the bus client: a frame
delivered to a peer, a fire-and-forget close task spawned for a peer
with a close code, and a publish on the bus channel. -/
inductive Effect where
  | sentFrame (peer : Nat) (payload : PyStr)
  | closeTask (peer : Nat) (code : Nat)
  | published (channel : PyStr) (payload : PyStr)
  deriving DecidableEq, Repr

/-- Embedding of `WSMessageRouter._send_to_peer`: an already-closed peer
is reported `CLOSED` with no action; a timeout yields `TIMEOUT` and a
detached close task with `WSCloseCode.GOING_AWAY`; any other exception
yields `INTERNAL_ERROR` and a detached close task with
`WSCloseCode.INTERNAL_ERROR`; otherwise the frame is sent and the
outcome is `OK`.  Every exception of the awaited send is caught, so the
function always returns a status rather than raising. -/
def send_to_peer (peer : Peer) (payload : PyStr) : PeerStatus × List Effect :=
  if peer.closed then (.CLOSED, [])
  else match peer.send with
  | .succeeds => (.OK, [.sentFrame peer.id payload])
  | .timesOut => (.TIMEOUT, [.closeTask peer.id WSCloseCode_GOING_AWAY])
  | .raises => (.INTERNAL_ERROR, [.closeTask peer.id WSCloseCode_INTERNAL_ERROR])

/-- Modelled from the spec: `ChatMessage.to_json` is called by
`WSMessageRouter._broadcast_to_local_peers`, by
`RedisManager.publish_message`'s test, and by the test suite, but its
definition is not under `src/`.  Per the codec contract (spec §4.1,
`encode(Message) -> raw`) and the test `test_publish_message` — which
passes exactly when `to_json` agrees with the `json_dumps` payload that
`publish_message` publishes — it encodes the message with the module's
`json_dumps`. -/
def to_json (m : PyValue) : PyStr := json_dumps m

/-- Modelled from the spec: `ChatMessage.from_json` is called by
`WSMessageRouter._handle_text` but its definition is not under `src/`.
Per the codec contract (spec §4.1, `decode(raw) -> Message |
DecodeError`) and the tests `test_handle_text_invalid_json` and
`test_handle_text_missing_fields` — under which a decode that does not
produce a `ChatMessage` must lead to no publish, while `_handle_text`
only guards with `except ValueError` / `except Exception` — it decodes
with the module's `json_loads` and raises a `ValueError`-class error
when the result is not a `ChatMessage`. -/
def from_json (s : PyStr) : Except PyExn PyValue :=
  match json_loads s with
  | .ok (.pychat a b c) => .ok (.pychat a b c)
  | .ok _ => .error .valueError
  | .error e => .error e

/-- Embedding of `WSMessageRouter._handle_text`: the frame text is
decoded with `ChatMessage.from_json`; on any exception the frame is
logged and dropped ("Drop garbage input instead of crashing the room")
and nothing is published; on success the decoded message is handed to
`RedisManager.publish_message`.  Returns the message to publish, if
any. -/
def handle_text (data : PyStr) : Option PyValue :=
  match from_json data with
  | .ok obj => some obj
  | .error _ => none

/-- Embedding of `WSMessageRouter._broadcast_to_local_peers` acting on
the snapshot of the live set: the message is encoded once, every peer of
the snapshot is sent the payload concurrently through `_send_to_peer`,
and every peer whose outcome is not `OK` is discarded from the live set.
The returned pair is the live set after the discards and the effects of
the broadcast (delivered frames and detached close tasks). -/
def broadcast_to_local_peers (clients : List Peer) (message : PyValue) :
    List Peer × List Effect :=
  let payload := to_json message
  (clients.filter fun p => decide ((send_to_peer p payload).1 = PeerStatus.OK),
    (clients.map fun p => (send_to_peer p payload).2).flatten)

/-- Embedding of `WSMessageRouter.close_all_connections`: with no live
connections it returns at once having done nothing; otherwise it spawns
a close with `WSCloseCode.GOING_AWAY` for every not-yet-closed
connection of the snapshot and awaits them under `WS_CLOSE_TIMEOUT`; a
timeout (`timedOut = true`) is logged and swallowed; the live set is
cleared unconditionally afterwards. -/
def close_all_connections (clients : List Peer) (_timedOut : Bool) :
    List Peer × List Effect :=
  if clients = [] then (clients, [])
  else
    ([], (clients.filter fun p => !p.closed).map
      fun p => .closeTask p.id WSCloseCode_GOING_AWAY)

/-- The bus channel name `RedisManager.CHANNEL`. -/
def CHANNEL : PyStr := str2cp "chat:messages"

/-- State of `RedisManager` in `src/server/redis.py`: whether
`self.client` holds a (truthy) Redis handle, whether a listener task is
running, and whether a message handler is registered.  `__init__` sets
all three to `None`. -/
structure RedisManager where
  client : Bool
  listener : Bool
  handler : Bool
  deriving DecidableEq, Repr

/-- The state after `RedisManager.__init__`. -/
def RedisManager.init : RedisManager :=
  { client := false, listener := false, handler := false }

/-- Embedding of `RedisManager.connect`: raises `RuntimeError` when
`self.client` is already set, otherwise creates the client. -/
def RedisManager.connect (s : RedisManager) : Except PyExn RedisManager :=
  if s.client then .error .runtimeError
  else .ok { s with client := true }

/-- Embedding of `RedisManager.disconnect`: cancels and awaits the
listener task if one is running, and closes the Redis client with
`aclose()` if one exists.  Note that it never resets `self.client` to
`None`, so the `client` flag stays as it was. -/
def RedisManager.disconnect (s : RedisManager) : RedisManager :=
  { s with listener := false }

/-- Embedding of `RedisManager.set_message_handler`. -/
def RedisManager.set_message_handler (s : RedisManager) : RedisManager :=
  { s with handler := true }

/-- Embedding of `RedisManager.publish_message`: raises `RuntimeError`
when `self.client` is `None`, otherwise publishes the `json_dumps`
payload on the channel. -/
def RedisManager.publish_message (s : RedisManager) (message : PyValue) :
    Except PyExn Effect :=
  if s.client = false then .error .runtimeError
  else .ok (.published CHANNEL (json_dumps message))

/-- Embedding of `RedisManager.start_listen`: raises `RuntimeError` when
`self.client` is falsy, otherwise spawns the listener task. -/
def RedisManager.start_listen (s : RedisManager) : Except PyExn RedisManager :=
  if s.client = false then .error .runtimeError
  else .ok { s with listener := true }

/-- Outcome of the registered message handler when the listener awaits
it: it returns, raises an ordinary `Exception`, or raises
`asyncio.CancelledError` (which `except Exception` does not catch). -/
inductive HandlerOutcome where
  | ok
  | raisesExc
  | raisesCancel
  deriving DecidableEq, Repr

/-- One occurrence in the listener loop of `RedisManager._listen_loop`:
an item yielded by `pubsub.listen()` carrying its `type` field, its
`data` payload and the behaviour of the handler for it; a
`CancelledError` delivered at an await point; or an exception escaping
the pubsub transport machinery. -/
inductive BusEvent where
  | item (ty : PyStr) (data : PyStr) (handler : HandlerOutcome)
  | cancelArrives
  | transportFault
  deriving DecidableEq, Repr

/-- How `_listen_loop` ends: the async iteration finished and the loop
returned normally; `asyncio.CancelledError` was logged and re-raised; or
an `Exception` escaped the iteration and the outer handler logged it and
returned silently. -/
inductive LoopExit where
  | streamEnded
  | cancelled
  | faultSwallowed
  deriving DecidableEq, Repr

/-- Embedding of `RedisManager._listen_loop` run over a sequence of
events: each `message`-typed item is decoded inside the per-item `try`,
whose `except ValueError` and `except Exception` arms log the item and
drop it so the loop continues; items of type `subscribe` or anything
else are only logged; a `CancelledError` — whether delivered at an await
point or raised by the handler — reaches the outer
`except asyncio.CancelledError` and is re-raised; any other exception of
the transport reaches the outer `except Exception`, which logs it and
returns.  The result is how the loop ended together with the messages
delivered to the handler. -/
def listen_loop (handlerSet : Bool) : List BusEvent → LoopExit × List PyValue
  | [] => (.streamEnded, [])
  | .cancelArrives :: _ => (.cancelled, [])
  | .transportFault :: _ => (.faultSwallowed, [])
  | .item ty data h :: rest =>
    if ty = str2cp "message" then
      match json_loads data with
      | .error _ => listen_loop handlerSet rest
      | .ok v =>
        if handlerSet then
          match h with
          | .ok =>
            let r := listen_loop handlerSet rest
            (r.1, v :: r.2)
          | .raisesExc => listen_loop handlerSet rest
          | .raisesCancel => (.cancelled, [])
        else listen_loop handlerSet rest
    else listen_loop handlerSet rest
/-- An event that makes `_listen_loop` stop: a delivered cancellation, a
transport fault, or an item whose handler invocation (which happens only
for a decodable `message`-typed item with a handler registered) raises
`CancelledError`. -/
def stopsLoop (handlerSet : Bool) : BusEvent → Bool
  | .item ty data h =>
    decide (ty = str2cp "message") && (json_loads data).isOk && handlerSet
      && decide (h = HandlerOutcome.raisesCancel)
  | .cancelArrives => true
  | .transportFault => true

/-- A code point that is a Unicode scalar value: in range and not a
surrogate.  These are exactly the code points of well-formed Unicode
strings; `json.dumps` followed by `json.loads` collapses an adjacent
surrogate pair into one code point, so round-tripping is stated over
scalar values. -/
abbrev ValidScalar (c : Nat) : Prop := c < 1114112 ∧ ¬(55296 ≤ c ∧ c ≤ 57343)

/-- A string of Unicode scalar values. -/
abbrev ValidStr (s : PyStr) : Prop := ∀ c ∈ s, ValidScalar c

/-- The value `[[ ... v ... ]]` wrapped in `n` singleton lists, for
stating that the decoder hook acts at every nesting depth. -/
def nestList : Nat → PyValue → PyValue
  | 0, v => v
  | n+1, v => .pylist [nestList n v]

/-- The frame `\x7b"text": "hi", "type": "m", "ts": 5\x7d` used to state
that the decoder hook fires at arbitrary nesting depth. -/
def chatCore : PyStr :=
  str2cp "\x7b\"text\": \"hi\", \"type\": \"m\", \"ts\": 5\x7d"

/-- The `ChatMessage` that `chatCore` decodes to. -/
def chatCoreVal : PyValue :=
  .pychat (.pystr (str2cp "hi")) (.pystr (str2cp "m")) (.pyint 5)

/-- Helper: with no stopping event, the loop consumes the whole stream
and returns normally. -/
theorem listen_loop_streamEnded (hs : Bool) (evs : List BusEvent)
    (h : ∀ e ∈ evs, stopsLoop hs e = false) :
    (listen_loop hs evs).1 = .streamEnded := by
  induction evs with
  | nil => rfl
  | cons e rest ih =>
    have he := h e (List.mem_cons_self e rest)
    have ih2 := ih fun x hx => h x (List.mem_cons_of_mem e hx)
    match e with
    | .cancelArrives => simp [stopsLoop] at he
    | .transportFault => simp [stopsLoop] at he
    | .item ty data hh =>
      by_cases hty : ty = str2cp "message"
      · cases hjl : json_loads data with
        | error err => simp [listen_loop, hty, hjl, ih2]
        | ok v =>
          by_cases hhs : hs = true
          · cases hh with
            | ok => simpa [listen_loop, hty, hjl, hhs] using ih2
            | raisesExc => simpa [listen_loop, hty, hjl, hhs] using ih2
            | raisesCancel =>
              exfalso
              have hst : stopsLoop hs (.item ty data .raisesCancel) = true := by
                simp [stopsLoop, hty, hjl, hhs, Except.isOk, Except.toBool]
              rw [he] at hst
              exact Bool.false_ne_true hst
          · simpa [listen_loop, hty, hjl, hhs] using ih2
      · simp [listen_loop, hty, ih2]

/-- Helper: a loop run that did not end with the stream exhausted was
stopped by some event of its input. -/
theorem listen_loop_stop_source (hs : Bool) (evs : List BusEvent)
    (h : (listen_loop hs evs).1 ≠ .streamEnded) :
    ∃ e ∈ evs, stopsLoop hs e = true := by
  by_contra hno
  push_neg at hno
  exact h (listen_loop_streamEnded hs evs
    fun e he => by simpa using hno e he)

/-- Helper: the loop reports a swallowed transport fault only when the
stream raised one. -/
theorem listen_loop_fault_source (hs : Bool) (evs : List BusEvent)
    (h : (listen_loop hs evs).1 = .faultSwallowed) :
    BusEvent.transportFault ∈ evs := by
  induction evs with
  | nil => simp [listen_loop] at h
  | cons e rest ih =>
    match e with
    | .transportFault => exact List.mem_cons_self _ _
    | .cancelArrives => simp [listen_loop] at h
    | .item ty data hh =>
      refine List.mem_cons_of_mem _ ?_
      by_cases hty : ty = str2cp "message"
      · cases hjl : json_loads data with
        | error err =>
          exact ih (by simpa [listen_loop, hty, hjl] using h)
        | ok v =>
          by_cases hhs : hs = true
          · cases hh with
            | ok => exact ih (by simpa [listen_loop, hty, hjl, hhs] using h)
            | raisesExc => exact ih (by simpa [listen_loop, hty, hjl, hhs] using h)
            | raisesCancel => simp [listen_loop, hty, hjl, hhs] at h
          · exact ih (by simpa [listen_loop, hty, hjl, hhs] using h)
      · exact ih (by simpa [listen_loop, hty] using h)

/-- Claim C7: the background bus-listener loop is never terminated by a
malformed received item — an item whose decode or handler invocation
fails is logged, dropped, and the loop continues with the remaining
stream; the loop ends other than by stream exhaustion only at a stopping
event (a delivered cancellation or a handler-raised `CancelledError`,
both re-raised, or an unrecoverable transport fault); and a transport
fault makes it return silently (`LoopExit.faultSwallowed` is a normal
return of the embedded loop, not an exception). -/
theorem listen_loop_survives_malformed_items (hs : Bool) (evs : List BusEvent) :
    ((∀ e ∈ evs, stopsLoop hs e = false) →
      (listen_loop hs evs).1 = .streamEnded) ∧
    ((listen_loop hs evs).1 ≠ .streamEnded →
      ∃ e ∈ evs, stopsLoop hs e = true) ∧
    ((listen_loop hs evs).1 = .faultSwallowed →
      BusEvent.transportFault ∈ evs) ∧
    (∀ ty data hh rest, (json_loads data).isOk = false →
      listen_loop hs (.item ty data hh :: rest) = listen_loop hs rest) ∧
    (∀ ty data rest,
      listen_loop hs (.item ty data .raisesExc :: rest)
        = listen_loop hs rest) := by
  refine ⟨listen_loop_streamEnded hs evs, listen_loop_stop_source hs evs,
    listen_loop_fault_source hs evs, ?_, ?_⟩
  · intro ty data hh rest hnok
    by_cases hty : ty = str2cp "message"
    · cases hjl : json_loads data with
      | ok v => rw [hjl] at hnok; simp [Except.isOk, Except.toBool] at hnok
      | error err => simp [listen_loop, hty, hjl]
    · simp [listen_loop, hty]
  · intro ty data rest
    by_cases hty : ty = str2cp "message"
    · cases hjl : json_loads data with
      | error err => simp [listen_loop, hty, hjl]
      | ok v =>
        by_cases hhs : hs = true
        · simp [listen_loop, hty, hjl, hhs]
        · simp [listen_loop, hty, hjl, hhs]
    · simp [listen_loop, hty]

/-- Witness for C7: a run containing an undecodable item, an item whose
handler raises, and a non-`message` item still consumes its whole stream
and ends normally. -/
theorem listen_loop_survives_witness :
    (listen_loop true
      [BusEvent.item (str2cp "message") (str2cp "invalid json") HandlerOutcome.ok,
        BusEvent.item (str2cp "message") (str2cp "42") HandlerOutcome.raisesExc,
        BusEvent.item (str2cp "subscribe") [] HandlerOutcome.ok,
        BusEvent.item (str2cp "message") (str2cp "7") HandlerOutcome.ok]).1
      = LoopExit.streamEnded :=
  (listen_loop_survives_malformed_items true
    [BusEvent.item (str2cp "message") (str2cp "invalid json") HandlerOutcome.ok,
      BusEvent.item (str2cp "message") (str2cp "42") HandlerOutcome.raisesExc,
      BusEvent.item (str2cp "subscribe") [] HandlerOutcome.ok,
      BusEvent.item (str2cp "message") (str2cp "7") HandlerOutcome.ok]).1
    (by decide)

/-- Claim C6, counterexample: the first `connect()` from the initial
state succeeds, but after `disconnect()` — which closes the client yet
leaves `self.client` set — a subsequent `connect()` raises the
already-connected `RuntimeError` instead of succeeding. -/
theorem reconnect_after_disconnect_raises :
    RedisManager.init.connect
      = .ok { client := true, listener := false, handler := false } ∧
    (RedisManager.disconnect
        { client := true, listener := false, handler := false }).connect
      = .error .runtimeError :=
  ⟨rfl, rfl⟩

/-- Claim C6, amended: `connect()` fails with the already-connected
error exactly when the client handle is set, which is the case after any
earlier successful `connect()` whether or not a `disconnect()`
intervened, because `disconnect()` never clears the handle; only the
first `connect()` from the initial state succeeds. -/
theorem connect_guard_ignores_disconnect (s : RedisManager) :
    (s.connect = .error .runtimeError ↔ s.client = true) ∧
    s.disconnect.client = s.client ∧
    RedisManager.init.connect
      = .ok { client := true, listener := false, handler := false } := by
  refine ⟨?_, rfl, rfl⟩
  cases hc : s.client <;> simp [RedisManager.connect, hc]

/-- Witness for the amended C6 at concrete states. -/
theorem connect_guard_witness :
    (RedisManager.disconnect
      { client := true, listener := true, handler := true }).client = true ∧
    RedisManager.connect { client := true, listener := false, handler := false }
      = .error .runtimeError :=
  ⟨(connect_guard_ignores_disconnect
      { client := true, listener := true, handler := true }).2.1.trans rfl,
    (connect_guard_ignores_disconnect
      { client := true, listener := false, handler := false }).1.mpr rfl⟩

/-- Claim C8: `close_all_connections` with zero live connections is a
no-op returning without error; the live set is empty after every call,
whether or not the bounded overall close timeout expired; and calling it
twice in a row is safe, the second call being the no-op. -/
theorem close_all_connections_idempotent_clearing :
    (∀ t, close_all_connections [] t = ([], [])) ∧
    (∀ clients t, (close_all_connections clients t).1 = []) ∧
    (∀ clients t u,
      close_all_connections (close_all_connections clients t).1 u
        = ([], [])) := by
  have hclear : ∀ (clients : List Peer) (t : Bool),
      (close_all_connections clients t).1 = [] := by
    intro clients t
    cases clients with
    | nil => rfl
    | cons p rest => simp [close_all_connections]
  refine ⟨fun t => rfl, hclear, fun clients t u => ?_⟩
  rw [hclear clients t]
  rfl

/-- Claim C9: when the client handle is unset — as it is before any
`connect()` has succeeded — `publish_message` and `start_listen` both
raise the not-connected `RuntimeError`; and after a successful
`connect()` both operations return normally instead. -/
theorem bus_guard_not_connected (s : RedisManager) (m : PyValue) :
    (s.client = false → s.publish_message m = .error .runtimeError) ∧
    (s.client = false → s.start_listen = .error .runtimeError) ∧
    (∀ s2, s.connect = .ok s2 →
      s2.publish_message m = .ok (.published CHANNEL (json_dumps m)) ∧
      s2.start_listen = .ok { s2 with listener := true }) := by
  refine ⟨?_, ?_, ?_⟩
  · intro hc; simp [RedisManager.publish_message, hc]
  · intro hc; simp [RedisManager.start_listen, hc]
  · intro s2 hc
    cases hcl : s.client with
    | true => simp [RedisManager.connect, hcl] at hc
    | false =>
      have hs2 : s2 = { s with client := true } := by
        simp [RedisManager.connect, hcl] at hc
        exact hc.symm
      subst hs2
      exact ⟨by simp [RedisManager.publish_message],
        by simp [RedisManager.start_listen]⟩

/-- Witness for C9 at the initial state and its successful first
connect. -/
theorem bus_guard_witness :
    RedisManager.init.publish_message PyValue.pynone = .error .runtimeError ∧
    RedisManager.init.start_listen = .error .runtimeError ∧
    (RedisManager.publish_message
        { client := true, listener := false, handler := false } PyValue.pynone
      = .ok (.published CHANNEL (json_dumps PyValue.pynone))) :=
  ⟨(bus_guard_not_connected RedisManager.init PyValue.pynone).1 rfl,
    (bus_guard_not_connected RedisManager.init PyValue.pynone).2.1 rfl,
    ((bus_guard_not_connected RedisManager.init PyValue.pynone).2.2
      { client := true, listener := false, handler := false } rfl).1⟩

/-- Claim C5: during a broadcast over the snapshot, a peer whose send
outcome is not `OK` is removed from the live set; an already-closed peer
yields `CLOSED` with no further action; a timed-out send yields
`TIMEOUT` plus a detached close task with code `goingAway`, and a send
that raises yields `INTERNAL_ERROR` plus a detached close task with code
`internalError`, those tasks being recorded among the broadcast's
fire-and-forget effects while the broadcast itself still returns its
full result (the embedded `_send_to_peer` is total — every transport
exception is caught — so no peer's failure aborts the broadcast). -/
theorem broadcast_discards_and_closes_failed_peers (clients : List Peer)
    (m : PyValue) (p : Peer) (hp : p ∈ clients) :
    ((send_to_peer p (to_json m)).1 ≠ PeerStatus.OK →
      p ∉ (broadcast_to_local_peers clients m).1) ∧
    (p.closed = true → send_to_peer p (to_json m) = (.CLOSED, [])) ∧
    (p.closed = false → p.send = .timesOut →
      send_to_peer p (to_json m)
          = (.TIMEOUT, [.closeTask p.id WSCloseCode_GOING_AWAY]) ∧
        Effect.closeTask p.id WSCloseCode_GOING_AWAY
          ∈ (broadcast_to_local_peers clients m).2) ∧
    (p.closed = false → p.send = .raises →
      send_to_peer p (to_json m)
          = (.INTERNAL_ERROR, [.closeTask p.id WSCloseCode_INTERNAL_ERROR]) ∧
        Effect.closeTask p.id WSCloseCode_INTERNAL_ERROR
          ∈ (broadcast_to_local_peers clients m).2) := by
  have heff : ∀ e, e ∈ (send_to_peer p (to_json m)).2 →
      e ∈ (broadcast_to_local_peers clients m).2 := by
    intro e he
    simp only [broadcast_to_local_peers]
    exact List.mem_flatten.mpr
      ⟨(send_to_peer p (to_json m)).2, List.mem_map_of_mem _ hp, he⟩
  refine ⟨?_, ?_, ?_, ?_⟩
  · intro hfail hmem
    simp only [broadcast_to_local_peers, List.mem_filter,
      decide_eq_true_eq] at hmem
    exact hfail hmem.2
  · intro hc; simp [send_to_peer, hc]
  · intro hc hsend
    have hst : send_to_peer p (to_json m)
        = (.TIMEOUT, [.closeTask p.id WSCloseCode_GOING_AWAY]) := by
      simp [send_to_peer, hc, hsend]
    exact ⟨hst, heff _ (by rw [hst]; exact List.mem_singleton_self _)⟩
  · intro hc hsend
    have hst : send_to_peer p (to_json m)
        = (.INTERNAL_ERROR, [.closeTask p.id WSCloseCode_INTERNAL_ERROR]) := by
      simp [send_to_peer, hc, hsend]
    exact ⟨hst, heff _ (by rw [hst]; exact List.mem_singleton_self _)⟩

/-- Witness for C5 on a concrete snapshot holding an already-closed
peer, a timing-out peer, a raising peer and a healthy peer. -/
theorem broadcast_discards_witness :
    (Peer.mk 2 false SendBehavior.timesOut
      ∉ (broadcast_to_local_peers
        [Peer.mk 1 true SendBehavior.succeeds,
          Peer.mk 2 false SendBehavior.timesOut,
          Peer.mk 3 false SendBehavior.raises,
          Peer.mk 4 false SendBehavior.succeeds]
        (.pychat (.pystr (str2cp "hi")) (.pystr (str2cp "message"))
          (.pyint 1000))).1) ∧
    Effect.closeTask 2 WSCloseCode_GOING_AWAY
      ∈ (broadcast_to_local_peers
        [Peer.mk 1 true SendBehavior.succeeds,
          Peer.mk 2 false SendBehavior.timesOut,
          Peer.mk 3 false SendBehavior.raises,
          Peer.mk 4 false SendBehavior.succeeds]
        (.pychat (.pystr (str2cp "hi")) (.pystr (str2cp "message"))
          (.pyint 1000))).2 ∧
    Effect.closeTask 3 WSCloseCode_INTERNAL_ERROR
      ∈ (broadcast_to_local_peers
        [Peer.mk 1 true SendBehavior.succeeds,
          Peer.mk 2 false SendBehavior.timesOut,
          Peer.mk 3 false SendBehavior.raises,
          Peer.mk 4 false SendBehavior.succeeds]
        (.pychat (.pystr (str2cp "hi")) (.pystr (str2cp "message"))
          (.pyint 1000))).2 ∧
    send_to_peer (Peer.mk 1 true SendBehavior.succeeds)
        (to_json (.pychat (.pystr (str2cp "hi")) (.pystr (str2cp "message"))
          (.pyint 1000)))
      = (PeerStatus.CLOSED, []) := by
  refine ⟨?_, ?_, ?_, ?_⟩
  · exact (broadcast_discards_and_closes_failed_peers _ _ _
      (by decide)).1 (by decide)
  · exact ((broadcast_discards_and_closes_failed_peers
      [Peer.mk 1 true SendBehavior.succeeds,
        Peer.mk 2 false SendBehavior.timesOut,
        Peer.mk 3 false SendBehavior.raises,
        Peer.mk 4 false SendBehavior.succeeds] _
      (Peer.mk 2 false SendBehavior.timesOut) (by decide)).2.2.1 rfl rfl).2
  · exact ((broadcast_discards_and_closes_failed_peers
      [Peer.mk 1 true SendBehavior.succeeds,
        Peer.mk 2 false SendBehavior.timesOut,
        Peer.mk 3 false SendBehavior.raises,
        Peer.mk 4 false SendBehavior.succeeds] _
      (Peer.mk 3 false SendBehavior.raises) (by decide)).2.2.2 rfl rfl).2
  · exact (broadcast_discards_and_closes_failed_peers
      [Peer.mk 1 true SendBehavior.succeeds,
        Peer.mk 2 false SendBehavior.timesOut,
        Peer.mk 3 false SendBehavior.raises,
        Peer.mk 4 false SendBehavior.succeeds] _
      (Peer.mk 1 true SendBehavior.succeeds) (by decide)).2.1 rfl

/-- Claim C2, counterexample: on non-structured input `decode` does not
return at all — the embedded `json_loads` propagates the
`json.JSONDecodeError` exception (the repository's own test
`test_from_json_invalid_json` expects exactly this raise). -/
theorem json_loads_raises_on_unstructured :
    json_loads (str2cp "invalid json") = .error .jsonDecodeError := by rfl

/-- Claim C2, amended: `decode` raises `json.JSONDecodeError` on
non-structured input and `TypeError` on an object carrying the three
required keys plus extras; apart from those two exception families it
returns normally — an object missing required keys comes back as the
plain dict, and an object with exactly the three keys comes back as a
`ChatMessage` whatever the field values are. -/
theorem json_loads_exception_discipline :
    json_loads (str2cp "invalid json") = .error .jsonDecodeError ∧
    json_loads (str2cp
        "\x7b\"text\": \"Test\", \"type\": \"message\", \"ts\": 123, \"extra\": \"ignored\"\x7d")
      = .error .typeError ∧
    (∀ obj, (requiredKeys.all fun k => (lookupKey obj k).isSome) = false →
      chat_message_decoder obj = .ok (.pydict obj)) ∧
    (∀ v1 v2 v3,
      chat_message_decoder [(textKey, v1), (typeKey, v2), (tsKey, v3)]
        = .ok (.pychat v1 v2 v3)) ∧
    json_loads (str2cp "\x7b\"text\": \"Missing fields\"\x7d")
      = .ok (.pydict [(textKey, .pystr (str2cp "Missing fields"))]) := by
  refine ⟨by rfl, by rfl, ?_, ?_, by rfl⟩
  · intro obj h
    simp [chat_message_decoder, h]
  · intro v1 v2 v3
    rfl

/-- Witness for the amended C2: a dict missing `type` and `ts` is
returned unchanged by the hook. -/
theorem json_loads_exception_witness :
    chat_message_decoder [(textKey, PyValue.pynone)]
      = .ok (.pydict [(textKey, PyValue.pynone)]) :=
  json_loads_exception_discipline.2.2.1 [(textKey, PyValue.pynone)] rfl

/-- Claim C3, counterexample: an object missing required fields decodes
to the plain dict rather than any error, and an object whose field
values have the wrong shapes (`text`/`type` integers, `ts` a string)
still decodes to a `ChatMessage` — so neither does `decode` signal
`DecodeError` for missing fields, nor do only exactly-shaped objects
decode to a `Message`. -/
theorem decode_shape_policy_counterexample :
    json_loads (str2cp "\x7b\"text\": \"Missing fields\"\x7d")
      = .ok (.pydict [(textKey, .pystr (str2cp "Missing fields"))]) ∧
    json_loads (str2cp "\x7b\"text\": 1, \"type\": 2, \"ts\": \"x\"\x7d")
      = .ok (.pychat (.pyint 1) (.pyint 2) (.pystr (str2cp "x"))) :=
  ⟨by rfl, by rfl⟩

/-- Claim C3, amended: `decode` raises `JSONDecodeError` on
non-structured input; returns the plain parsed value (no error) for an
object missing any required key; raises `TypeError` for an object whose
keys strictly contain the three; and applies no value-shape validation,
so every object with exactly the keys `text`, `type`, `ts` decodes to a
`ChatMessage` whatever the value types. -/
theorem decode_shape_policy :
    json_loads (str2cp "not structured text") = .error .jsonDecodeError ∧
    (∀ obj, (requiredKeys.all fun k => (lookupKey obj k).isSome) = false →
      chat_message_decoder obj = .ok (.pydict obj)) ∧
    (∀ obj, (requiredKeys.all fun k => (lookupKey obj k).isSome) = true →
      (obj.all fun kv => decide (kv.1 ∈ requiredKeys)) = false →
      chat_message_decoder obj = .error .typeError) ∧
    (∀ v1 v2 v3,
      chat_message_decoder [(textKey, v1), (typeKey, v2), (tsKey, v3)]
        = .ok (.pychat v1 v2 v3)) := by
  refine ⟨by rfl, ?_, ?_, ?_⟩
  · intro obj h
    simp [chat_message_decoder, h]
  · intro obj hall hex
    simp [chat_message_decoder, hall, hex]
  · intro v1 v2 v3
    rfl

/-- Witness for the amended C3: a superset-key object raises
`TypeError`, and an exactly-keyed object with wrongly-typed values still
becomes a `ChatMessage`. -/
theorem decode_shape_policy_witness :
    chat_message_decoder
        [(textKey, .pystr (str2cp "a")), (typeKey, .pystr (str2cp "b")),
          (tsKey, .pyint 3), (str2cp "extra", .pynone)]
      = .error .typeError ∧
    chat_message_decoder
        [(textKey, .pybool true), (typeKey, .pynone), (tsKey, .pystr (str2cp "x"))]
      = .ok (.pychat (.pybool true) .pynone (.pystr (str2cp "x"))) :=
  ⟨decode_shape_policy.2.2.1 _ rfl rfl,
    decode_shape_policy.2.2.2 _ _ _⟩

/-- Helper: the sample frame parses to its `ChatMessage` for any fuel
reserve and any following input. -/
theorem parse_chatCore (f : Nat) (tail : PyStr) :
    parseJValue (f + 5) (chatCore ++ tail) = .ok (chatCoreVal, tail) := by
  rfl

/-- Helper: one scanner step into an array whose first element is an
object. -/
theorem parseJValue_bracket_obj (fuel : Nat) (r : PyStr) :
    parseJValue (fuel + 1) (91 :: 123 :: r)
      = match parseJValue fuel (123 :: r) with
        | .error e => .error e
        | .ok (v, r3) => parseJElems fuel (skipWs r3) [v] := rfl

/-- Helper: one scanner step into an array whose first element is again
an array. -/
theorem parseJValue_bracket_arr (fuel : Nat) (r : PyStr) :
    parseJValue (fuel + 1) (91 :: 91 :: r)
      = match parseJValue fuel (91 :: r) with
        | .error e => .error e
        | .ok (v, r3) => parseJElems fuel (skipWs r3) [v] := rfl

/-- Helper: the scanner reaches an object wrapped in `n` array brackets
and the decoder hook still converts it, at any depth `n`. -/
theorem parse_nested_chatCore (n : Nat) : ∀ (f : Nat) (tail : PyStr),
    parseJValue (2 * n + f + 5)
        (List.replicate n 91 ++ (chatCore ++ (List.replicate n 93 ++ tail)))
      = .ok (nestList n chatCoreVal, tail) := by
  induction n with
  | zero =>
    intro f tail
    simpa using parse_chatCore f tail
  | succ m ih =>
    intro f tail
    have hfu : 2 * (m + 1) + f + 5 = (2 * m + (f + 1) + 5) + 1 := by ring
    have hin : List.replicate (m + 1) 93 ++ tail
        = List.replicate m 93 ++ (93 :: tail) := by
      rw [List.replicate_succ', List.append_assoc]
      rfl
    rw [hfu, List.replicate_succ, List.cons_append, hin]
    have hih := ih (f + 1) (93 :: tail)
    cases m with
    | zero =>
      simp only [List.replicate, List.nil_append] at hih ⊢
      rw [show chatCore ++ (93 :: tail) = 123 :: (chatCore.tail ++ (93 :: tail))
        from rfl]
      rw [parseJValue_bracket_obj]
      rw [show (123 : Nat) :: (chatCore.tail ++ (93 :: tail))
        = chatCore ++ (93 :: tail) from rfl]
      rw [hih]
      rfl
    | succ k =>
      rw [show List.replicate (k + 1) 91
            ++ (chatCore ++ (List.replicate (k + 1) 93 ++ (93 :: tail)))
          = 91 :: (List.replicate k 91
            ++ (chatCore ++ (List.replicate (k + 1) 93 ++ (93 :: tail))))
        from by simp [List.replicate_succ]]
      rw [parseJValue_bracket_arr]
      rw [show (91 : Nat) :: (List.replicate k 91
            ++ (chatCore ++ (List.replicate (k + 1) 93 ++ (93 :: tail))))
          = List.replicate (k + 1) 91
            ++ (chatCore ++ (List.replicate (k + 1) 93 ++ (93 :: tail)))
        from by simp [List.replicate_succ]]
      rw [hih]
      rfl

/-- Helper: `json.loads` of a whitespace-free input that scans fully. -/
theorem json_loads_of_parse (s : PyStr) (v : PyValue)
    (hws : skipWs s = s)
    (h : parseJValue (s.length + 1) s = .ok (v, [])) :
    json_loads s = .ok v := by
  simp only [json_loads, hws, h]
  rfl

/-- Helper: a bracket-nested frame has no leading whitespace. -/
theorem skipWs_nested (n : Nat) :
    skipWs (List.replicate n 91 ++ (chatCore ++ List.replicate n 93))
      = List.replicate n 91 ++ (chatCore ++ List.replicate n 93) := by
  cases n with
  | zero => rfl
  | succ m => simp [List.replicate_succ, skipWs, isJsonWs]

/-- Claim C10, counterexample: an object whose keys strictly include
`text`, `type` and `ts` is not converted to a `ChatMessage`; the hook's
`ChatMessage(**obj)` call raises `TypeError`, so `decode` raises instead
of returning a converted value (the repository's own test
`test_from_json_extra_fields_throw_error` expects this raise). -/
theorem nested_hook_counterexample :
    json_loads (str2cp
        "\x7b\"text\": \"Test\", \"type\": \"message\", \"ts\": 123, \"extra\": \"ignored\"\x7d")
      = .error .typeError := by
  rfl

/-- Claim C10, amended: the decoder hook is applied to every object at
any nesting depth and its key test is a subset check; an object with
exactly the three keys becomes a `ChatMessage` wherever it occurs, so
`decode` can return composite values containing `ChatMessage` instances,
while an object whose keys strictly include the three makes `decode`
raise `TypeError` from the `ChatMessage(**obj)` call. -/
theorem hook_applies_at_every_depth :
    (∀ n, json_loads (List.replicate n 91 ++ (chatCore ++ List.replicate n 93))
      = .ok (nestList n chatCoreVal)) ∧
    json_loads (str2cp
        "\x7b\"w\": [\x7b\"text\": \"hi\", \"type\": \"m\", \"ts\": 5\x7d]\x7d")
      = .ok (.pydict [(str2cp "w", .pylist [chatCoreVal])]) ∧
    (∀ k v1 v2 v3 v4, ¬k ∈ requiredKeys →
      chat_message_decoder
          [(textKey, v1), (typeKey, v2), (tsKey, v3), (k, v4)]
        = .error .typeError) := by
  refine ⟨?_, by rfl, ?_⟩
  · intro n
    apply json_loads_of_parse _ _ (skipWs_nested n)
    have h := parse_nested_chatCore n 32 []
    rw [List.append_nil] at h
    have h36 : chatCore.length = 36 := by rfl
    have hl : (List.replicate n 91 ++ (chatCore ++ List.replicate n 93)).length + 1
        = 2 * n + 32 + 5 := by
      simp only [List.length_append, List.length_replicate, h36]
      omega
    rw [hl]
    exact h
  · intro k v1 v2 v3 v4 hk
    simp [chat_message_decoder, lookupKey, requiredKeys, hk,
      (show ¬textKey = typeKey by decide), (show ¬textKey = tsKey by decide),
      (show ¬typeKey = tsKey by decide)]
    simpa [requiredKeys] using hk

/-- Witness for the amended C10 at depth two and at a concrete extra
key. -/
theorem hook_depth_witness :
    json_loads (List.replicate 2 91 ++ (chatCore ++ List.replicate 2 93))
      = .ok (nestList 2 chatCoreVal) ∧
    chat_message_decoder
        [(textKey, .pyint 1), (typeKey, .pyint 2), (tsKey, .pyint 3),
          (str2cp "extra", .pyint 4)]
      = .error .typeError :=
  ⟨hook_applies_at_every_depth.1 2,
    hook_applies_at_every_depth.2.2 (str2cp "extra") _ _ _ _ (by decide)⟩

theorem natDigitsRev_digits (f : Nat) : ∀ n, n < f → ∀ d ∈ natDigitsRev f n, d < 10 := by
  induction f with
  | zero => intro n h; omega
  | succ g ih =>
    intro n h d hd
    rw [natDigitsRev] at hd
    by_cases h10 : n < 10
    · simp [h10] at hd
      omega
    · simp [h10] at hd
      cases hd with
      | inl h0 => omega
      | inr h1 => exact ih (n / 10) (by omega) d h1

theorem natDigitsRev_reverse_head (f : Nat) : ∀ n, n < f → 1 ≤ n →
    ∃ d ds, (natDigitsRev f n).reverse = d :: ds ∧ 1 ≤ d ∧ d ≤ 9 := by
  induction f with
  | zero => intro n h; omega
  | succ g ih =>
    intro n h h1
    rw [natDigitsRev]
    by_cases h10 : n < 10
    · exact ⟨n, [], by simp [h10], h1, by omega⟩
    · obtain ⟨d, ds, hds, hd1, hd9⟩ := ih (n / 10) (by omega) (by omega)
      refine ⟨d, ds ++ [n % 10], ?_, hd1, hd9⟩
      simp [h10, List.reverse_cons, hds]

theorem foldl_digits_natDigitsRev (f : Nat) : ∀ n acc, n < f →
    ((natDigitsRev f n).reverse.map fun d => d + 48).foldl
        (fun a d => a * 10 + (d - 48)) acc
      = acc * 10 ^ (natDigitsRev f n).length + n := by
  induction f with
  | zero => intro n acc h; omega
  | succ g ih =>
    intro n acc h
    rw [natDigitsRev]
    by_cases h10 : n < 10
    · simp [h10]
    · simp only [h10, if_false, List.reverse_cons, List.map_append,
        List.foldl_append, List.length_cons]
      rw [ih (n / 10) acc (by omega)]
      simp only [List.map_cons, List.map_nil, List.foldl_cons, List.foldl_nil]
      rw [pow_succ]
      have h1 : (acc * 10 ^ (natDigitsRev g (n / 10)).length + n / 10) * 10
          = acc * (10 ^ (natDigitsRev g (n / 10)).length * 10) + n / 10 * 10 := by
        ring
      rw [h1, Nat.add_assoc]
      congr 1
      omega

theorem digitsToNat_natRepr (n : Nat) : digitsToNat (natRepr n) = n := by
  have h := foldl_digits_natDigitsRev (n + 1) n 0 (by omega)
  simpa [digitsToNat, natRepr] using h

theorem natRepr_zero_eq : natRepr 0 = [48] := by rfl

theorem natRepr_pos_head (n : Nat) (h : 1 ≤ n) :
    ∃ d ds, natRepr n = d :: ds ∧ 49 ≤ d ∧ d ≤ 57 ∧
      (∀ x ∈ ds, isDigit x = true) := by
  obtain ⟨d, ds, hds, hd1, hd9⟩ := natDigitsRev_reverse_head (n + 1) n (by omega) h
  have hall : ∀ x ∈ (natDigitsRev (n + 1) n).reverse, x < 10 := by
    intro x hx
    exact natDigitsRev_digits (n + 1) n (by omega) x (List.mem_reverse.mp hx)
  refine ⟨d + 48, ds.map fun x => x + 48, ?_, by omega, by omega, ?_⟩
  · rw [natRepr, hds]
    rfl
  · intro x hx
    simp only [List.mem_map] at hx
    obtain ⟨a, ha, rfl⟩ := hx
    have : a < 10 := by
      have : a ∈ (natDigitsRev (n + 1) n).reverse := by
        rw [hds]; exact List.mem_cons_of_mem _ ha
      exact hall a this
    simp [isDigit]
    omega

theorem span_digits_append (ds : PyStr) (x : Nat) (xs : PyStr)
    (hds : ∀ d ∈ ds, isDigit d = true) (hx : isDigit x = false) :
    (ds ++ (x :: xs)).span isDigit = (ds, x :: xs) := by
  induction ds with
  | nil => simp [List.span_eq_take_drop, hx]
  | cons a as ih =>
    have ha := hds a (List.mem_cons_self a as)
    have ihs := ih fun d hd => hds d (List.mem_cons_of_mem a hd)
    rw [List.span_eq_take_drop] at ihs ⊢
    rw [Prod.mk.injEq] at ihs ⊢
    simp only [List.cons_append, List.takeWhile_cons, List.dropWhile_cons, ha,
      if_true]
    exact ⟨by rw [ihs.1], ihs.2⟩

theorem scanFrac_cons_ne (x : Nat) (xs : PyStr) (hx : ¬x = 46) :
    scanFrac (x :: xs) = none := by
  unfold scanFrac
  split
  next r heq =>
    injection heq with h1 h2
    exact absurd h1 hx
  next => rfl

theorem scanExp_cons_ne (x : Nat) (xs : PyStr) (hx : ¬(x = 101 ∨ x = 69)) :
    scanExp (x :: xs) = none := by
  unfold scanExp
  simp [hx]

theorem scanSign_no_minus (s : PyStr) (h : ∀ r, s ≠ 45 :: r) :
    scanSign s = (false, s) := by
  unfold scanSign
  split
  next => exact absurd rfl (h _)
  next => rfl

theorem scanIntPart_digits (d : Nat) (ds : PyStr) (x : Nat) (xs : PyStr)
    (hd : 49 ≤ d ∧ d ≤ 57) (hds : ∀ a ∈ ds, isDigit a = true)
    (hx : isDigit x = false) :
    scanIntPart ((d :: ds) ++ (x :: xs)) = some (false, d :: ds, x :: xs) := by
  have hspan := span_digits_append ds x xs hds hx
  rw [List.span_eq_take_drop, Prod.mk.injEq] at hspan
  obtain ⟨hs1, hs2⟩ := hspan
  obtain ⟨hd1, hd2⟩ := hd
  interval_cases d <;> simp [scanIntPart, scanSign, hs1, hs2]

theorem scanIntPart_neg_digits (d : Nat) (ds : PyStr) (x : Nat) (xs : PyStr)
    (hd : 49 ≤ d ∧ d ≤ 57) (hds : ∀ a ∈ ds, isDigit a = true)
    (hx : isDigit x = false) :
    scanIntPart (45 :: ((d :: ds) ++ (x :: xs)))
      = some (true, d :: ds, x :: xs) := by
  have hspan := span_digits_append ds x xs hds hx
  rw [List.span_eq_take_drop, Prod.mk.injEq] at hspan
  obtain ⟨hs1, hs2⟩ := hspan
  obtain ⟨hd1, hd2⟩ := hd
  interval_cases d <;> simp [scanIntPart, scanSign, hs1, hs2]

theorem parseJNumber_of_scan (s : PyStr) (neg : Bool) (ds : PyStr) (x : Nat)
    (xs : PyStr) (hscan : scanIntPart s = some (neg, ds, x :: xs))
    (h46 : ¬x = 46) (hexp : ¬(x = 101 ∨ x = 69)) :
    parseJNumber s
      = some (.pyint ((if neg then -1 else 1) * (digitsToNat ds : Int)),
          x :: xs) := by
  unfold parseJNumber
  rw [hscan]
  dsimp only
  rw [scanFrac_cons_ne x xs h46]
  dsimp only
  rw [scanExp_cons_ne x xs hexp]

theorem parseJNumber_intRepr (n : Int) (x : Nat) (xs : PyStr)
    (hx : isDigit x = false) (h46 : ¬x = 46) (hexp : ¬(x = 101 ∨ x = 69)) :
    parseJNumber (intRepr n ++ (x :: xs)) = some (.pyint n, x :: xs) := by
  rcases lt_trichotomy n 0 with hneg | hzero | hpos
  · have h1 : 1 ≤ n.natAbs := by omega
    obtain ⟨d, ds, hrep, hd1, hd2, hds⟩ := natRepr_pos_head n.natAbs h1
    have hform : intRepr n ++ (x :: xs) = 45 :: ((d :: ds) ++ (x :: xs)) := by
      rw [intRepr, if_pos hneg, hrep]
      rfl
    rw [hform, parseJNumber_of_scan _ true (d :: ds) x xs
      (scanIntPart_neg_digits d ds x xs ⟨hd1, hd2⟩ hds hx) h46 hexp]
    have hval : digitsToNat (d :: ds) = n.natAbs := by
      rw [← hrep, digitsToNat_natRepr]
    rw [show ((if true then (-1 : Int) else 1)) = -1 from rfl, hval]
    have hv2 : (-1 : Int) * (n.natAbs : Int) = n := by omega
    rw [hv2]
  · subst hzero
    rw [show intRepr 0 ++ (x :: xs) = 48 :: (x :: xs) from rfl]
    rw [parseJNumber_of_scan (48 :: (x :: xs)) false [48] x xs
      (show scanIntPart (48 :: (x :: xs)) = some (false, [48], x :: xs)
        from rfl) h46 hexp]
    rfl
  · have h1 : 1 ≤ n.toNat := by omega
    obtain ⟨d, ds, hrep, hd1, hd2, hds⟩ := natRepr_pos_head n.toNat h1
    have hform : intRepr n ++ (x :: xs) = (d :: ds) ++ (x :: xs) := by
      rw [intRepr, if_neg (by omega), hrep]
    rw [hform, parseJNumber_of_scan _ false (d :: ds) x xs
      (scanIntPart_digits d ds x xs ⟨hd1, hd2⟩ hds hx) h46 hexp]
    have hval : digitsToNat (d :: ds) = n.toNat := by
      rw [← hrep, digitsToNat_natRepr]
    rw [show ((if false then (-1 : Int) else 1)) = 1 from rfl, hval]
    have hv2 : (1 : Int) * (n.toNat : Int) = n := by omega
    rw [hv2]

theorem parseJString_char (c : Nat) (X : PyStr) (h34 : ¬c = 34) (h92 : ¬c = 92)
    (hctl : ¬c < 32) :
    parseJString (c :: X) = (parseJString X).map fun p => (c :: p.1, p.2) := by
  rw [parseJString.eq_def]
  split
  all_goals simp_all

theorem parseJString_u_escape (h1 h2 h3 h4 u : Nat) (X : PyStr)
    (hhex : hex4 h1 h2 h3 h4 = some u) (hu : ¬(55296 ≤ u ∧ u ≤ 56319)) :
    parseJString (92 :: 117 :: h1 :: h2 :: h3 :: h4 :: X)
      = (parseJString X).map fun p => (u :: p.1, p.2) := by
  rw [parseJString.eq_def]
  split
  case h_5 hno12 hno6 heq =>
    exfalso
    injection heq with hh ht
    injection ht with he hrest
    exact hno6 h1 h2 h3 h4 X he.symm hrest.symm
  case h_6 tail hno heq =>
    exfalso
    injection heq with hh ht
    first
      | exact hno _ _ ht
      | exact hno _ _ ht.symm
  all_goals simp_all

theorem parseJValue_atom (fuel : Nat) (c : Nat) (X : PyStr)
    (h34 : ¬c = 34) (h123 : ¬c = 123) (h91 : ¬c = 91) :
    parseJValue (fuel + 1) (c :: X) = parseJAtom (c :: X) := by
  rw [parseJValue.eq_def]
  split
  all_goals simp_all

theorem parseJAtom_number (c : Nat) (X : PyStr) (v : PyValue) (r : PyStr)
    (hc : c = 45 ∨ 48 ≤ c ∧ c ≤ 57)
    (hnum : parseJNumber (c :: X) = some (v, r)) :
    parseJAtom (c :: X) = .ok (v, r) := by
  rw [parseJAtom.eq_def]
  split
  all_goals simp_all

theorem hexVal_hexDigit (d : Nat) (h : d < 16) : hexVal (hexDigit d) = some d := by
  interval_cases d <;> rfl

theorem hex4_toHex4 (v : Nat) (h : v < 65536) :
    hex4 (hexDigit (v / 4096 % 16)) (hexDigit (v / 256 % 16))
      (hexDigit (v / 16 % 16)) (hexDigit (v % 16)) = some v := by
  rw [hex4]
  rw [hexVal_hexDigit _ (by omega), hexVal_hexDigit _ (by omega),
    hexVal_hexDigit _ (by omega), hexVal_hexDigit _ (by omega)]
  show some _ = some v
  congr 1
  omega

theorem parseJString_short_escape (e c : Nat) (Y : PyStr)
    (hesc : escDecode e = some c) :
    parseJString (92 :: e :: Y) = (parseJString Y).map fun p => (c :: p.1, p.2) := by
  rw [parseJString.eq_def]
  split
  case h_6 tail hno heq =>
    exfalso
    injection heq with hh ht
    exact hno _ _ ht.symm
  all_goals simp_all [escDecode]

theorem parseJString_surrogate_pair (a b c2 d e f g h u1 u2 : Nat) (Z : PyStr)
    (hh : hex4 a b c2 d = some u1) (hl : hex4 e f g h = some u2)
    (h1 : 55296 ≤ u1 ∧ u1 ≤ 56319) (h2 : 56320 ≤ u2 ∧ u2 ≤ 57343) :
    parseJString (92 :: 117 :: a :: b :: c2 :: d :: 92 :: 117 :: e :: f :: g :: h :: Z)
      = (parseJString Z).map fun p =>
          ((65536 + (u1 - 55296) * 1024 + (u2 - 56320)) :: p.1, p.2) := by
  rw [parseJString.eq_def]
  split
  case h_4 h1x h2x h3x h4x restx hno heq =>
    exfalso
    injection heq with q1 t1
    injection t1 with q2 t2
    injection t2 with q3 t3
    injection t3 with q4 t4
    injection t4 with q5 t5
    injection t5 with q6 t6
    exact hno e f g h Z t6.symm
  case h_5 hno12 hno6 heq =>
    exfalso
    injection heq with hh ht
    injection ht with he2 hrest
    exact hno12 a b c2 d e f g h Z he2.symm hrest.symm
  case h_6 tail hno heq =>
    exfalso
    injection heq with hh ht
    exact hno _ _ ht.symm
  all_goals simp_all

theorem parseJString_escape (s : PyStr) : ValidStr s → ∀ rest : PyStr,
    parseJString (escapeStr s ++ (34 :: rest)) = .ok (s, rest) := by
  induction s with
  | nil =>
    intro _ rest
    rfl
  | cons c cs ih =>
    intro hs rest
    have hc := hs c (List.mem_cons_self c cs)
    have ihc := ih (fun x hx => hs x (List.mem_cons_of_mem c hx)) rest
    have hesc : escapeStr (c :: cs) ++ (34 :: rest)
        = escChar c ++ (escapeStr cs ++ (34 :: rest)) := by
      simp [escapeStr, List.append_assoc]
    rw [hesc]
    by_cases h34 : c = 34
    · subst h34
      exact (parseJString_short_escape 34 34 _ rfl).trans (by simp [ihc, Except.map])
    by_cases h92 : c = 92
    · subst h92
      exact (parseJString_short_escape 92 92 _ rfl).trans (by simp [ihc, Except.map])
    by_cases h8 : c = 8
    · subst h8
      exact (parseJString_short_escape 98 8 _ rfl).trans (by simp [ihc, Except.map])
    by_cases h12 : c = 12
    · subst h12
      exact (parseJString_short_escape 102 12 _ rfl).trans (by simp [ihc, Except.map])
    by_cases h10 : c = 10
    · subst h10
      exact (parseJString_short_escape 110 10 _ rfl).trans (by simp [ihc, Except.map])
    by_cases h13 : c = 13
    · subst h13
      exact (parseJString_short_escape 114 13 _ rfl).trans (by simp [ihc, Except.map])
    by_cases h9 : c = 9
    · subst h9
      exact (parseJString_short_escape 116 9 _ rfl).trans (by simp [ihc, Except.map])
    by_cases hprint : 32 ≤ c ∧ c ≤ 126
    · have he : escChar c = [c] := by
        simp [escChar, h34, h92, h8, h12, h10, h13, h9, hprint]
      rw [he, List.singleton_append,
        parseJString_char c _ h34 h92 (by omega), ihc]
      rfl
    by_cases hbmp : c < 65536
    · have he : escChar c = 92 :: 117 :: toHex4 c := by
        simp [escChar, h34, h92, h8, h12, h10, h13, h9, hprint, hbmp]
      rw [he]
      rw [show (92 :: 117 :: toHex4 c) ++ (escapeStr cs ++ (34 :: rest))
          = 92 :: 117 :: hexDigit (c / 4096 % 16) :: hexDigit (c / 256 % 16)
            :: hexDigit (c / 16 % 16) :: hexDigit (c % 16)
            :: (escapeStr cs ++ (34 :: rest)) from by
          simp [toHex4]]
      rw [parseJString_u_escape _ _ _ _ c _ (hex4_toHex4 c hbmp)
        (by have := hc.2; omega), ihc]
      rfl
    · have hlt : c < 1114112 := hc.1
      have he : escChar c
          = (92 :: 117 :: toHex4 (55296 + (c - 65536) / 1024))
            ++ (92 :: 117 :: toHex4 (56320 + (c - 65536) % 1024)) := by
        simp [escChar, h34, h92, h8, h12, h10, h13, h9, hprint, hbmp]
      rw [he]
      set u1 := 55296 + (c - 65536) / 1024 with hu1
      set u2 := 56320 + (c - 65536) % 1024 with hu2
      simp only [toHex4, List.cons_append, List.nil_append, List.append_assoc]
      rw [parseJString_surrogate_pair _ _ _ _ _ _ _ _ u1 u2 _
        (hex4_toHex4 u1 (by omega)) (hex4_toHex4 u2 (by omega))
        (by omega) (by omega), ihc]
      simp only [Except.map]
      have hcomb : 65536 + (u1 - 55296) * 1024 + (u2 - 56320) = c := by omega
      rw [hcomb]

theorem parseJValue_obj (fuel : Nat) (r : PyStr) :
    parseJValue (fuel + 1) (123 :: 34 :: r) = parseJMembers fuel r [] := rfl

theorem members_key_text (g : Nat) (E : PyStr) (acc : List (PyStr × PyValue))
    (sv r3 : PyStr) (hE : parseJString E = .ok (sv, r3)) :
    parseJMembers (g + 2)
        (116 :: 101 :: 120 :: 116 :: 34 :: 58 :: 32 :: 34 :: E) acc
      = match skipWs r3 with
        | 125 :: r4 =>
          (chat_message_decoder
            (dictOfPairs (acc ++ [(textKey, PyValue.pystr sv)]))).map
            fun w => (w, r4)
        | 44 :: r4 =>
          (match skipWs r4 with
          | 34 :: r5 =>
            parseJMembers (g + 1) r5 (acc ++ [(textKey, PyValue.pystr sv)])
          | _ => Except.error PyExn.jsonDecodeError)
        | _ => Except.error PyExn.jsonDecodeError := by
  have hstep : parseJMembers (g + 2)
      (116 :: 101 :: 120 :: 116 :: 34 :: 58 :: 32 :: 34 :: E) acc
      = match (parseJString E).map (fun p => (PyValue.pystr p.1, p.2)) with
        | .error e => .error e
        | .ok (v, r3) =>
          match skipWs r3 with
          | 125 :: r4 =>
            (chat_message_decoder (dictOfPairs (acc ++ [(textKey, v)]))).map
              fun w => (w, r4)
          | 44 :: r4 =>
            (match skipWs r4 with
            | 34 :: r5 => parseJMembers (g + 1) r5 (acc ++ [(textKey, v)])
            | _ => Except.error PyExn.jsonDecodeError)
          | _ => Except.error PyExn.jsonDecodeError := rfl
  rw [hstep, hE]
  rfl

theorem members_key_type (g : Nat) (E : PyStr) (acc : List (PyStr × PyValue))
    (sv r3 : PyStr) (hE : parseJString E = .ok (sv, r3)) :
    parseJMembers (g + 2)
        (116 :: 121 :: 112 :: 101 :: 34 :: 58 :: 32 :: 34 :: E) acc
      = match skipWs r3 with
        | 125 :: r4 =>
          (chat_message_decoder
            (dictOfPairs (acc ++ [(typeKey, PyValue.pystr sv)]))).map
            fun w => (w, r4)
        | 44 :: r4 =>
          (match skipWs r4 with
          | 34 :: r5 =>
            parseJMembers (g + 1) r5 (acc ++ [(typeKey, PyValue.pystr sv)])
          | _ => Except.error PyExn.jsonDecodeError)
        | _ => Except.error PyExn.jsonDecodeError := by
  have hstep : parseJMembers (g + 2)
      (116 :: 121 :: 112 :: 101 :: 34 :: 58 :: 32 :: 34 :: E) acc
      = match (parseJString E).map (fun p => (PyValue.pystr p.1, p.2)) with
        | .error e => .error e
        | .ok (v, r3) =>
          match skipWs r3 with
          | 125 :: r4 =>
            (chat_message_decoder (dictOfPairs (acc ++ [(typeKey, v)]))).map
              fun w => (w, r4)
          | 44 :: r4 =>
            (match skipWs r4 with
            | 34 :: r5 => parseJMembers (g + 1) r5 (acc ++ [(typeKey, v)])
            | _ => Except.error PyExn.jsonDecodeError)
          | _ => Except.error PyExn.jsonDecodeError := rfl
  rw [hstep, hE]
  rfl

theorem members_key_ts (g : Nat) (Y X : PyStr) (acc : List (PyStr × PyValue))
    (n : Int) (hws : skipWs Y = Y)
    (hY : parseJValue (g + 1) Y = .ok (.pyint n, 125 :: X)) :
    parseJMembers (g + 2) (116 :: 115 :: 34 :: 58 :: 32 :: Y) acc
      = (chat_message_decoder
          (dictOfPairs (acc ++ [(tsKey, PyValue.pyint n)]))).map
          fun w => (w, X) := by
  have hstep : parseJMembers (g + 2) (116 :: 115 :: 34 :: 58 :: 32 :: Y) acc
      = match parseJValue (g + 1) (skipWs Y) with
        | .error e => .error e
        | .ok (v, r3) =>
          match skipWs r3 with
          | 125 :: r4 =>
            (chat_message_decoder (dictOfPairs (acc ++ [(tsKey, v)]))).map
              fun w => (w, r4)
          | 44 :: r4 =>
            (match skipWs r4 with
            | 34 :: r5 => parseJMembers (g + 1) r5 (acc ++ [(tsKey, v)])
            | _ => Except.error PyExn.jsonDecodeError)
          | _ => Except.error PyExn.jsonDecodeError := rfl
  rw [hstep, hws, hY]
  rfl

theorem intRepr_head (n : Int) :
    ∃ c cs, intRepr n = c :: cs ∧ (c = 45 ∨ 48 ≤ c ∧ c ≤ 57) := by
  rcases lt_trichotomy n 0 with hneg | hzero | hpos
  · exact ⟨45, natRepr n.natAbs, by rw [intRepr, if_pos hneg], Or.inl rfl⟩
  · subst hzero
    exact ⟨48, [], by rfl, Or.inr (by omega)⟩
  · obtain ⟨d, ds, hrep, h1, h2, _⟩ := natRepr_pos_head n.toNat (by omega)
    exact ⟨d, ds, by rw [intRepr, if_neg (by omega), hrep], Or.inr (by omega)⟩

theorem parseJValue_intRepr (f : Nat) (n : Int) :
    parseJValue (f + 1) (intRepr n ++ (125 :: []))
      = .ok (.pyint n, 125 :: []) := by
  obtain ⟨c, cs, hrep, hc⟩ := intRepr_head n
  have hnum : parseJNumber (c :: (cs ++ (125 :: [])))
      = some (.pyint n, 125 :: []) := by
    rw [show c :: (cs ++ (125 :: [])) = intRepr n ++ (125 :: []) from by
      rw [hrep, List.cons_append]]
    exact parseJNumber_intRepr n 125 [] (by decide) (by decide) (by decide)
  rw [hrep, List.cons_append]
  rw [parseJValue_atom f c _ (by omega) (by omega) (by omega)]
  exact parseJAtom_number c _ _ _ hc hnum

theorem skipWs_intRepr (n : Int) :
    skipWs (intRepr n ++ (125 :: [])) = intRepr n ++ (125 :: []) := by
  obtain ⟨c, cs, hrep, hc⟩ := intRepr_head n
  have hcws : isJsonWs c = false := by
    simp only [isJsonWs]
    simp only [Bool.or_eq_false_iff, decide_eq_false_iff_not]
    omega
  rw [hrep, List.cons_append]
  simp [skipWs, hcws]

theorem parse_chat_template (t y : PyStr) (n : Int) (f : Nat)
    (ht : ValidStr t) (hy : ValidStr y) :
    parseJValue (f + 4 + 1)
        (123 :: 34 :: 116 :: 101 :: 120 :: 116 :: 34 :: 58 :: 32 :: 34 ::
          (escapeStr t ++ (34 :: 44 :: 32 :: 34 :: 116 :: 121 :: 112 :: 101
            :: 34 :: 58 :: 32 :: 34 ::
            (escapeStr y ++ (34 :: 44 :: 32 :: 34 :: 116 :: 115 :: 34 :: 58
              :: 32 :: (intRepr n ++ (125 :: [])))))))
      = .ok (.pychat (.pystr t) (.pystr y) (.pyint n), []) := by
  have hE1 : parseJString (escapeStr t
      ++ (34 :: 44 :: 32 :: 34 :: 116 :: 121 :: 112 :: 101 :: 34 :: 58 :: 32
        :: 34 :: (escapeStr y ++ (34 :: 44 :: 32 :: 34 :: 116 :: 115 :: 34
          :: 58 :: 32 :: (intRepr n ++ (125 :: []))))))
      = .ok (t, 44 :: 32 :: 34 :: 116 :: 121 :: 112 :: 101 :: 34 :: 58 :: 32
        :: 34 :: (escapeStr y ++ (34 :: 44 :: 32 :: 34 :: 116 :: 115 :: 34
          :: 58 :: 32 :: (intRepr n ++ (125 :: []))))) :=
    parseJString_escape t ht _
  have hE2 : parseJString (escapeStr y
      ++ (34 :: 44 :: 32 :: 34 :: 116 :: 115 :: 34 :: 58 :: 32
        :: (intRepr n ++ (125 :: []))))
      = .ok (y, 44 :: 32 :: 34 :: 116 :: 115 :: 34 :: 58 :: 32
        :: (intRepr n ++ (125 :: []))) :=
    parseJString_escape y hy _
  calc parseJValue (f + 4 + 1)
        (123 :: 34 :: 116 :: 101 :: 120 :: 116 :: 34 :: 58 :: 32 :: 34 ::
          (escapeStr t ++ (34 :: 44 :: 32 :: 34 :: 116 :: 121 :: 112 :: 101
            :: 34 :: 58 :: 32 :: 34 ::
            (escapeStr y ++ (34 :: 44 :: 32 :: 34 :: 116 :: 115 :: 34 :: 58
              :: 32 :: (intRepr n ++ (125 :: [])))))))
      = parseJMembers (f + 2 + 2)
          (116 :: 101 :: 120 :: 116 :: 34 :: 58 :: 32 :: 34 ::
            (escapeStr t ++ (34 :: 44 :: 32 :: 34 :: 116 :: 121 :: 112 :: 101
              :: 34 :: 58 :: 32 :: 34 ::
              (escapeStr y ++ (34 :: 44 :: 32 :: 34 :: 116 :: 115 :: 34 :: 58
                :: 32 :: (intRepr n ++ (125 :: []))))))) [] := rfl
    _ = _ := members_key_text (f + 2) _ [] t _ hE1
    _ = parseJMembers (f + 1 + 2)
          (116 :: 121 :: 112 :: 101 :: 34 :: 58 :: 32 :: 34 ::
            (escapeStr y ++ (34 :: 44 :: 32 :: 34 :: 116 :: 115 :: 34 :: 58
              :: 32 :: (intRepr n ++ (125 :: [])))))
          [(textKey, PyValue.pystr t)] := rfl
    _ = _ := members_key_type (f + 1) _ [(textKey, PyValue.pystr t)] y _ hE2
    _ = parseJMembers (f + 2)
          (116 :: 115 :: 34 :: 58 :: 32 :: (intRepr n ++ (125 :: [])))
          [(textKey, PyValue.pystr t), (typeKey, PyValue.pystr y)] := rfl
    _ = (chat_message_decoder (dictOfPairs
          ([(textKey, PyValue.pystr t), (typeKey, PyValue.pystr y)]
            ++ [(tsKey, PyValue.pyint n)]))).map (fun w => (w, [])) :=
        members_key_ts f _ [] _ n (skipWs_intRepr n) (parseJValue_intRepr f n)
    _ = .ok (.pychat (.pystr t) (.pystr y) (.pyint n), []) := rfl

theorem json_dumps_chat (t y : PyStr) (n : Int) :
    json_dumps (.pychat (.pystr t) (.pystr y) (.pyint n))
      = 123 :: 34 :: 116 :: 101 :: 120 :: 116 :: 34 :: 58 :: 32 :: 34 ::
          (escapeStr t ++ (34 :: 44 :: 32 :: 34 :: 116 :: 121 :: 112 :: 101
            :: 34 :: 58 :: 32 :: 34 ::
            (escapeStr y ++ (34 :: 44 :: 32 :: 34 :: 116 :: 115 :: 34 :: 58
              :: 32 :: (intRepr n ++ (125 :: [])))))) := by
  simp only [json_dumps, dumpsVal]
  rw [show escapeStr textKey = [116, 101, 120, 116] from rfl,
    show escapeStr typeKey = [116, 121, 112, 101] from rfl,
    show escapeStr tsKey = [116, 115] from rfl]
  simp [List.append_assoc]

/-- Claim C4: for every valid message — any Unicode-scalar string
`text`, any Unicode-scalar string `type`, any integer `ts` — decoding
the encoding yields the message back:
`json_loads (json_dumps m) = m`, the equality being structural over the
three fields. -/
theorem message_round_trip (t y : PyStr) (n : Int)
    (ht : ValidStr t) (hy : ValidStr y) :
    json_loads (json_dumps (.pychat (.pystr t) (.pystr y) (.pyint n)))
      = .ok (.pychat (.pystr t) (.pystr y) (.pyint n)) := by
  rw [json_dumps_chat]
  apply json_loads_of_parse
  · rfl
  · rw [show (123 :: 34 :: 116 :: 101 :: 120 :: 116 :: 34 :: 58 :: 32 :: 34 ::
          (escapeStr t ++ (34 :: 44 :: 32 :: 34 :: 116 :: 121 :: 112 :: 101
            :: 34 :: 58 :: 32 :: 34 ::
            (escapeStr y ++ (34 :: 44 :: 32 :: 34 :: 116 :: 115 :: 34 :: 58
              :: 32 :: (intRepr n ++ (125 :: []))))))).length + 1
        = ((escapeStr t).length + (escapeStr y).length + (intRepr n).length
            + 28) + 4 + 1 from by
      simp [List.length_append, List.length_cons]
      omega]
    exact parse_chat_template t y n _ ht hy

/-- Witness for C4 at the message of Scenario A. -/
theorem message_round_trip_witness :
    ValidStr (str2cp "hi") ∧ ValidStr (str2cp "message") ∧
    json_loads (json_dumps (.pychat (.pystr (str2cp "hi"))
        (.pystr (str2cp "message")) (.pyint 1000)))
      = .ok (.pychat (.pystr (str2cp "hi")) (.pystr (str2cp "message"))
          (.pyint 1000)) :=
  ⟨by decide, by decide,
    message_round_trip (str2cp "hi") (str2cp "message") 1000
      (by decide) (by decide)⟩

theorem count_sentFrame_zero (payload : PyStr) (pid : Nat) (rest : List Peer)
    (hno : pid ∉ rest.map Peer.id) :
    ((rest.map fun q => (send_to_peer q payload).2).flatten.count
      (Effect.sentFrame pid payload)) = 0 := by
  induction rest with
  | nil => rfl
  | cons q qs ih =>
    have hq : ¬q.id = pid := by
      simp only [List.map_cons, List.mem_cons] at hno
      exact fun h => hno (Or.inl h.symm)
    have hno2 : pid ∉ qs.map Peer.id := by
      simp only [List.map_cons, List.mem_cons] at hno
      exact fun h => hno (Or.inr h)
    rw [List.map_cons, List.flatten_cons, List.count_append, ih hno2]
    cases hc : q.closed with
    | true => simp [send_to_peer, hc]
    | false =>
      cases hs : q.send with
      | succeeds => simp [send_to_peer, hc, hs, List.count_cons, hq]
      | timesOut => simp [send_to_peer, hc, hs, List.count_cons]
      | raises => simp [send_to_peer, hc, hs, List.count_cons]

theorem count_sentFrame_one (payload : PyStr) (clients : List Peer) (p : Peer)
    (hids : (clients.map Peer.id).Nodup) (hp : p ∈ clients)
    (hopen : p.closed = false) (hok : p.send = .succeeds) :
    ((clients.map fun q => (send_to_peer q payload).2).flatten.count
      (Effect.sentFrame p.id payload)) = 1 := by
  induction clients with
  | nil => cases hp
  | cons q qs ih =>
    rw [List.map_cons, List.flatten_cons, List.count_append]
    have hnd := hids
    rw [List.map_cons, List.nodup_cons] at hnd
    rcases List.mem_cons.mp hp with rfl | hp2
    · rw [count_sentFrame_zero payload p.id qs hnd.1]
      simp [send_to_peer, hopen, hok, List.count_cons]
    · have hqid : ¬q.id = p.id := by
        intro h
        exact hnd.1 (h ▸ List.mem_map_of_mem Peer.id hp2)
      rw [ih hnd.2 hp2]
      cases hc : q.closed with
      | true => simp [send_to_peer, hc]
      | false =>
        cases hs : q.send with
        | succeeds => simp [send_to_peer, hc, hs, List.count_cons, hqid]
        | timesOut => simp [send_to_peer, hc, hs, List.count_cons]
        | raises => simp [send_to_peer, hc, hs, List.count_cons]

/-- Claim C1: fan-out correctness.  When a submitted frame decodes to a
message, `_handle_text` hands exactly that message to
`RedisManager.publish_message`, which (connected) publishes its
`json_dumps` encoding on the channel; the broadcast payload `to_json` is
that same string, and in the broadcast over the live snapshot every peer
that is open and whose send succeeds receives exactly one `send_str`
frame carrying the published string, and stays in the live set. -/
theorem fanout_exactly_once (frame : PyStr) (msg : PyValue)
    (clients : List Peer) (p : Peer) (s : RedisManager)
    (_hdec : handle_text frame = some msg)
    (hconn : s.client = true)
    (hids : (clients.map Peer.id).Nodup)
    (hp : p ∈ clients) (hopen : p.closed = false) (hok : p.send = .succeeds) :
    s.publish_message msg = .ok (.published CHANNEL (json_dumps msg)) ∧
    to_json msg = json_dumps msg ∧
    (broadcast_to_local_peers clients msg).2.count
      (Effect.sentFrame p.id (json_dumps msg)) = 1 ∧
    p ∈ (broadcast_to_local_peers clients msg).1 := by
  refine ⟨?_, rfl, ?_, ?_⟩
  · simp [RedisManager.publish_message, hconn]
  · show ((clients.map fun q => (send_to_peer q (to_json msg)).2).flatten.count
      (Effect.sentFrame p.id (json_dumps msg))) = 1
    exact count_sentFrame_one (json_dumps msg) clients p hids hp hopen hok
  · show p ∈ clients.filter fun q =>
      decide ((send_to_peer q (to_json msg)).1 = PeerStatus.OK)
    refine List.mem_filter.mpr ⟨hp, ?_⟩
    simp [send_to_peer, hopen, hok]

/-- Witness for C1: Scenario A — peer 1 and peer 2 connected and open,
peer 1 submits the claim's frame; the frame decodes, the connected bus
publishes it, and each of the two peers is counted exactly one delivered
copy of the published string. -/
theorem fanout_witness :
    handle_text (str2cp "\x7b\"text\":\"hi\",\"type\":\"message\",\"ts\":1000\x7d")
        = some (PyValue.pychat (.pystr (str2cp "hi"))
            (.pystr (str2cp "message")) (.pyint 1000)) ∧
    RedisManager.publish_message
        { client := true, listener := true, handler := true }
        (PyValue.pychat (.pystr (str2cp "hi"))
          (.pystr (str2cp "message")) (.pyint 1000))
      = .ok (.published CHANNEL
          (json_dumps (PyValue.pychat (.pystr (str2cp "hi"))
            (.pystr (str2cp "message")) (.pyint 1000)))) ∧
    (broadcast_to_local_peers
        [{ id := 1, closed := false, send := .succeeds },
         { id := 2, closed := false, send := .succeeds }]
        (PyValue.pychat (.pystr (str2cp "hi"))
          (.pystr (str2cp "message")) (.pyint 1000))).2.count
      (Effect.sentFrame 1 (json_dumps (PyValue.pychat (.pystr (str2cp "hi"))
        (.pystr (str2cp "message")) (.pyint 1000)))) = 1 ∧
    (broadcast_to_local_peers
        [{ id := 1, closed := false, send := .succeeds },
         { id := 2, closed := false, send := .succeeds }]
        (PyValue.pychat (.pystr (str2cp "hi"))
          (.pystr (str2cp "message")) (.pyint 1000))).2.count
      (Effect.sentFrame 2 (json_dumps (PyValue.pychat (.pystr (str2cp "hi"))
        (.pystr (str2cp "message")) (.pyint 1000)))) = 1 := by
  refine ⟨rfl, ?_, ?_, ?_⟩
  · exact (fanout_exactly_once
      (str2cp "\x7b\"text\":\"hi\",\"type\":\"message\",\"ts\":1000\x7d")
      (PyValue.pychat (.pystr (str2cp "hi"))
        (.pystr (str2cp "message")) (.pyint 1000))
      [{ id := 1, closed := false, send := .succeeds },
       { id := 2, closed := false, send := .succeeds }]
      { id := 1, closed := false, send := .succeeds }
      { client := true, listener := true, handler := true }
      rfl rfl (by decide) (List.mem_cons_self _ _) rfl rfl).1
  · exact (fanout_exactly_once
      (str2cp "\x7b\"text\":\"hi\",\"type\":\"message\",\"ts\":1000\x7d")
      (PyValue.pychat (.pystr (str2cp "hi"))
        (.pystr (str2cp "message")) (.pyint 1000))
      [{ id := 1, closed := false, send := .succeeds },
       { id := 2, closed := false, send := .succeeds }]
      { id := 1, closed := false, send := .succeeds }
      { client := true, listener := true, handler := true }
      rfl rfl (by decide) (List.mem_cons_self _ _) rfl rfl).2.2.1
  · exact (fanout_exactly_once
      (str2cp "\x7b\"text\":\"hi\",\"type\":\"message\",\"ts\":1000\x7d")
      (PyValue.pychat (.pystr (str2cp "hi"))
        (.pystr (str2cp "message")) (.pyint 1000))
      [{ id := 1, closed := false, send := .succeeds },
       { id := 2, closed := false, send := .succeeds }]
      { id := 2, closed := false, send := .succeeds }
      { client := true, listener := true, handler := true }
      rfl rfl (by decide)
      (List.mem_cons_of_mem _ (List.mem_cons_self _ _)) rfl rfl).2.2.1
